import Mathlib

/-!
Verification of the qanoon-ai repository core against its specification.

The development shallowly embeds the Python source:
- `src/app.py` (`generate_gemini_response`): streaming generation with
  credential rotation around the Gemini API;
- `src/backend/ai/rag_engine.py` (`RAGEngine`): FAISS index load, batched
  build with checkpointing, record extraction, and search;
- `src/update_memory.py` (`update_memory`): incremental dedup of raw PDFs
  against already-indexed titles;
- `src/migrate_to_pincone.py` (`migrate_to_pinecone`): metadata truncation
  and embedding during cloud migration.

External calls (LLM stream, embedding provider, FAISS primitives) are
modelled as explicit behaviour parameters; an attempt that raises in Python
is modelled by an `exn msg` outcome carrying `str(e)`.
-/

/-! ## Generation orchestrator (src/app.py, `generate_gemini_response`) -/

/-- Termination of one streamed attempt with a single credential: either the
stream completes normally, or an exception with message `msg` (Python
`str(e)`) escapes, possibly mid-stream. -/
inductive AttemptOutcome where
  | success
  | exn (msg : String)
deriving DecidableEq

/-- One attempt of `current_llm.stream(prompt)` under a fixed credential: the
chunk contents produced before the stream ends, and how it ends. -/
structure AttemptResult where
  chunks : List String
  outcome : AttemptOutcome

/-- Fragments actually yielded by an attempt: the loop body runs
`if chunk.content: yield chunk.content`, so empty contents are skipped. -/
def emitted (r : AttemptResult) : List String :=
  r.chunks.filter (fun c => c != "")

/-- Characters of a string, lowercased (Python `str.lower()` on the ASCII
error text). -/
def lowerStr (s : String) : List Char :=
  s.data.map Char.toLower

/-- Substring occurrence test, modelling Python `sub in s`. -/
def hasSub (pat : List Char) : List Char → Bool
  | [] => pat.isEmpty
  | c :: rest => pat.isPrefixOf (c :: rest) || hasSub pat rest

/-- The rate-limit classification of `generate_gemini_response`:
`'429' in error_msg or 'rate_limit' in error_msg or 'resource_exhausted' in
error_msg` on the lowercased exception text. -/
def isRateLimitErr (msg : String) : Bool :=
  let m := lowerStr msg
  hasSub "429".data m || hasSub "rate_limit".data m || hasSub "resource_exhausted".data m

/-- The fixed capacity-exceeded fallback yielded after every key fails with a
rate-limit error (verbatim from src/app.py). -/
def limitReachedMsg : String :=
  "\n\n### ⏳ Limit Reached\nPlease wait 60 seconds, take a deep breath, and ask again. If still fails then daily limit is reached. Try again tomorrow."

/-- The fallback yielded on any non-rate-limit exception; it embeds the
exception text (verbatim from src/app.py). -/
def systemInterruptionMsg (msg : String) : String :=
  "\n\n### ⚠️ System Interruption\nAn unexpected error occurred: " ++ msg

/-- `generate_gemini_response` from src/app.py. `behavior k` is the result of
streaming with credential `k`; the key list plays the role of `GEMINI_KEYS`.
The function returns the full sequence of fragments yielded to the consumer:
per key, stream fragments are yielded as they arrive; on success the
generator returns; on a rate-limit exception the loop continues with the next
key; on any other exception it yields one interruption message and returns;
if the key list is exhausted it yields the fixed capacity message. -/
def generate_gemini_response (behavior : Nat → AttemptResult) : List Nat → List String
  | [] => [limitReachedMsg]
  | k :: rest =>
    match (behavior k).outcome with
    | .success => emitted (behavior k)
    | .exn msg =>
      if isRateLimitErr msg then
        emitted (behavior k) ++ generate_gemini_response behavior rest
      else
        emitted (behavior k) ++ [systemInterruptionMsg msg]

/-- Number of attempt cycles (keys actually tried) performed by
`generate_gemini_response` on the same inputs. -/
def generateAttempts (behavior : Nat → AttemptResult) : List Nat → Nat
  | [] => 0
  | k :: rest =>
    match (behavior k).outcome with
    | .success => 1
    | .exn msg =>
      if isRateLimitErr msg then 1 + generateAttempts behavior rest else 1

/-- Helper: a block of keys that all fail with rate-limit errors contributes
exactly its streamed fragments (in order, nothing retracted, nothing
inserted) and one attempt per key, after which generation continues with the
remaining keys. -/
theorem generate_rl_rotation (behavior : Nat → AttemptResult) (pre rest : List Nat)
    (h : ∀ k ∈ pre, ∃ msg, (behavior k).outcome = .exn msg ∧ isRateLimitErr msg = true) :
    generate_gemini_response behavior (pre ++ rest)
      = pre.flatMap (fun k => emitted (behavior k)) ++ generate_gemini_response behavior rest
    ∧ generateAttempts behavior (pre ++ rest)
      = pre.length + generateAttempts behavior rest := by
  induction pre with
  | nil => simp
  | cons k pre ih =>
    obtain ⟨msg, hmsg, hrl⟩ := h k (by simp)
    have ih' := ih (fun j hj => h j (by simp [hj]))
    refine ⟨?_, ?_⟩
    · simp only [List.cons_append, generate_gemini_response, hmsg, hrl, if_true,
        List.append_eq, List.flatMap_cons, List.append_assoc, ih'.1]
    · simp only [List.cons_append, generateAttempts, hmsg, hrl, if_true,
        List.append_eq, List.length_cons, ih'.2]
      omega

/-- Claim C1: if every credential in the rotation pool raises a rate-limit
error, `generate_gemini_response` performs exactly one attempt per credential
(hence at most `max_retries` = number-of-keys attempt cycles), yields the
fragments streamed before each failure followed by exactly one fixed
capacity-exceeded fallback message, and terminates. -/
theorem generate_all_keys_rate_limited (behavior : Nat → AttemptResult) (keys : List Nat)
    (h : ∀ k ∈ keys, ∃ msg, (behavior k).outcome = .exn msg ∧ isRateLimitErr msg = true) :
    generate_gemini_response behavior keys
      = keys.flatMap (fun k => emitted (behavior k)) ++ [limitReachedMsg]
    ∧ generateAttempts behavior keys = keys.length := by
  have h2 := generate_rl_rotation behavior keys [] h
  constructor
  · have := h2.1
    simpa [generate_gemini_response] using this
  · have := h2.2
    simpa [generateAttempts] using this

/-- Test fixture: every key fails with the same rate-limit error after
streaming one fragment. -/
def allRateLimitedBehavior : Nat → AttemptResult :=
  fun _ => ⟨["x"], .exn "429 You exceeded your current quota"⟩

/-- Witness for C1 at three credentials that all rate-limit. -/
theorem generate_all_keys_rate_limited_witness :
    generate_gemini_response allRateLimitedBehavior [0, 1, 2] = ["x", "x", "x", limitReachedMsg]
    ∧ generateAttempts allRateLimitedBehavior [0, 1, 2] = 3 := by
  have h := generate_all_keys_rate_limited allRateLimitedBehavior [0, 1, 2]
    (fun k _ => ⟨"429 You exceeded your current quota", rfl, by decide⟩)
  exact ⟨h.1.trans (by decide), h.2.trans (by decide)⟩

/-- Fixtures for C3: two distinct payload-too-large failures (non-rate-limit
exceptions) on the only credential. -/
def payloadErrA : Nat → AttemptResult :=
  fun _ => ⟨[], .exn "400 Request payload size exceeds the limit: 4194304 bytes"⟩

/-- Second payload-too-large fixture, differing only in the reported size. -/
def payloadErrB : Nat → AttemptResult :=
  fun _ => ⟨[], .exn "400 Request payload size exceeds the limit: 8388608 bytes"⟩

/-- Claim C3 (counterexample): the fallback yielded on a payload-too-large
error is not a fixed "simplify the query" message — src/app.py has no such
message; the single yielded fallback embeds the exception text, so two
different payload errors produce two different fallbacks. -/
theorem generate_payload_fallback_not_fixed :
    generate_gemini_response payloadErrA [0] ≠ generate_gemini_response payloadErrB [0]
    ∧ generate_gemini_response payloadErrA [0]
        = [systemInterruptionMsg "400 Request payload size exceeds the limit: 4194304 bytes"] := by
  exact ⟨by decide, by decide⟩

/-- Claim C3 (amended): a payload-too-large error (any non-rate-limit
exception) on any attempt makes `generate_gemini_response` yield exactly one
fallback message carrying the error cause and terminate with zero additional
attempts: keys after the failing one are never tried and no credential
rotation happens past the failure. -/
theorem generate_permanent_error_fast_fail (behavior : Nat → AttemptResult)
    (pre : List Nat) (k : Nat) (post : List Nat) (msg : String)
    (hpre : ∀ j ∈ pre, ∃ m, (behavior j).outcome = .exn m ∧ isRateLimitErr m = true)
    (hk : (behavior k).outcome = .exn msg) (hnr : isRateLimitErr msg = false) :
    generate_gemini_response behavior (pre ++ k :: post)
      = pre.flatMap (fun j => emitted (behavior j)) ++ emitted (behavior k)
          ++ [systemInterruptionMsg msg]
    ∧ generateAttempts behavior (pre ++ k :: post) = pre.length + 1 := by
  have h := generate_rl_rotation behavior pre (k :: post) hpre
  constructor
  · rw [h.1]
    simp [generate_gemini_response, hk, hnr]
  · rw [h.2]
    simp [generateAttempts, hk, hnr]

/-- Fixture for the C3 witness: key 0 rate-limits, key 1 hits a permanent
payload error after streaming one fragment, key 2 would succeed but is never
reached. -/
def payloadMidBehavior : Nat → AttemptResult := fun k =>
  match k with
  | 0 => ⟨["a"], .exn "429 rate_limit"⟩
  | 1 => ⟨["b"], .exn "400 Request payload size exceeds the limit"⟩
  | _ => ⟨["c"], .success⟩

/-- Witness for the amended C3: the permanent error on the second key stops
generation with two attempts and one cause-carrying fallback. -/
theorem generate_permanent_error_fast_fail_witness :
    generate_gemini_response payloadMidBehavior [0, 1, 2]
      = ["a", "b", systemInterruptionMsg "400 Request payload size exceeds the limit"]
    ∧ generateAttempts payloadMidBehavior [0, 1, 2] = 2 := by
  have h := generate_permanent_error_fast_fail payloadMidBehavior [0] 1 [2]
    "400 Request payload size exceeds the limit"
    (fun j hj => by
      have hj0 : j = 0 := by simpa using hj
      subst hj0
      exact ⟨"429 rate_limit", rfl, by decide⟩)
    rfl (by decide)
  exact ⟨h.1.trans (by decide), h.2.trans (by decide)⟩

/-- Fixture for C4: key 0 streams fragment "A" and then rate-limits; key 1
streams "A" then "B" and completes. -/
def dupBehavior : Nat → AttemptResult := fun k =>
  match k with
  | 0 => ⟨["A"], .exn "429 RESOURCE_EXHAUSTED"⟩
  | _ => ⟨["A", "B"], .success⟩

/-- Claim C4 (counterexample): on a mid-stream rate limit the next credential
restarts the stream from scratch and nothing deduplicates, so a fragment
already emitted by the interrupted attempt ("A") is emitted again by the
subsequent attempt: the consumer sees it twice. -/
theorem generate_duplicate_fragment_emission :
    generate_gemini_response dupBehavior [0, 1] = ["A", "A", "B"]
    ∧ "A" ∈ emitted (dupBehavior 0)
    ∧ (generate_gemini_response dupBehavior [0, 1]).count "A" = 2 := by
  exact ⟨by decide, by decide, by decide⟩

/-- Claim C4 (amended): when rate-limit errors interrupt attempts and unused
credentials remain, `generate_gemini_response` switches keys silently: every
fragment already streamed is preserved in order as a prefix of the final
output (never retracted), no fallback or marker is inserted at the switch,
and each interrupted attempt costs exactly one attempt cycle. The code does
not deduplicate, so the subsequent attempt's stream may repeat fragments. -/
theorem generate_key_switch_silent (behavior : Nat → AttemptResult) (pre rest : List Nat)
    (h : ∀ k ∈ pre, ∃ msg, (behavior k).outcome = .exn msg ∧ isRateLimitErr msg = true) :
    generate_gemini_response behavior (pre ++ rest)
      = pre.flatMap (fun k => emitted (behavior k)) ++ generate_gemini_response behavior rest
    ∧ generateAttempts behavior (pre ++ rest)
      = pre.length + generateAttempts behavior rest :=
  generate_rl_rotation behavior pre rest h

/-- Witness for the amended C4 at a concrete interrupted attempt. -/
theorem generate_key_switch_silent_witness :
    generate_gemini_response dupBehavior [0, 1]
      = [0].flatMap (fun k => emitted (dupBehavior k)) ++ generate_gemini_response dupBehavior [1]
    ∧ generateAttempts dupBehavior [0, 1] = [0].length + generateAttempts dupBehavior [1] := by
  exact generate_key_switch_silent dupBehavior [0] [1]
    (fun k hk => by
      have hk0 : k = 0 := by simpa using hk
      subst hk0
      exact ⟨"429 RESOURCE_EXHAUSTED", rfl, by decide⟩)

/-! ## Retrieval (src/backend/ai/rag_engine.py, `RAGEngine.search` and
`RAGEngine.load_index`) -/

/-- A document as returned by `FAISS.similarity_search`: page content plus a
string metadata dictionary. -/
structure SimDoc where
  page_content : String
  metadata : List (String × String)
deriving DecidableEq

/-- Python `dict.get(key, default)` on a string dictionary. -/
def dictGetD (m : List (String × String)) (key dflt : String) : String :=
  (m.lookup key).getD dflt

/-- A search hit as returned to the caller: the `{"text": ..., "title": ...}`
dictionary built by `RAGEngine.search`. -/
structure SearchHit where
  text : String
  title : String
deriving DecidableEq

/-- `RAGEngine.search` from src/backend/ai/rag_engine.py. `db` is `self.db`
(`None` when the index is unbuilt or failed to load); when present it carries
the behaviour of `similarity_search(query, k)`, which either returns ranked
documents or raises (`Except.error`). The Python `try/except` swallows any
search failure into `[]`. -/
def RAGEngine.search (db : Option (String → Nat → Except String (List SimDoc)))
    (query : String) (k : Nat) : List SearchHit :=
  match db with
  | none => []
  | some sim =>
    match sim query k with
    | .error _ => []
    | .ok docs => docs.map (fun d => ⟨d.page_content, dictGetD d.metadata "title" "Unknown"⟩)

/-- Claim C2: for every query and k, `search` returns `[]` (and, being a
total function, never raises) when the index is unbuilt, and also returns
`[]` when the underlying similarity search (embedding call included) fails;
on success it returns the ranked results stripped to text/title pairs, title
defaulting to "Unknown". -/
theorem search_empty_index_and_failure_safe
    (db : Option (String → Nat → Except String (List SimDoc))) (query : String) (k : Nat) :
    (db = none → RAGEngine.search db query k = [])
    ∧ (∀ sim e, db = some sim → sim query k = .error e → RAGEngine.search db query k = [])
    ∧ (∀ sim docs, db = some sim → sim query k = .ok docs →
        RAGEngine.search db query k
          = docs.map (fun d => ⟨d.page_content, dictGetD d.metadata "title" "Unknown"⟩)) := by
  refine ⟨?_, ?_, ?_⟩
  · intro hdb
    simp [RAGEngine.search, hdb]
  · intro sim e hdb hsim
    simp [RAGEngine.search, hdb, hsim]
  · intro sim docs hdb hsim
    simp [RAGEngine.search, hdb, hsim]

/-- Fixture: a similarity search that always fails (e.g. the embedding
endpoint is down). -/
def failingSim : String → Nat → Except String (List SimDoc) :=
  fun _ _ => .error "HuggingFace endpoint timeout"

/-- Witness for C2: unbuilt index and failing backend both yield `[]`. -/
theorem search_empty_index_and_failure_safe_witness :
    RAGEngine.search none "theft punishment" 20 = []
    ∧ RAGEngine.search (some failingSim) "theft punishment" 20 = [] := by
  refine ⟨?_, ?_⟩
  · exact (search_empty_index_and_failure_safe none "theft punishment" 20).1 rfl
  · exact (search_empty_index_and_failure_safe (some failingSim) "theft punishment" 20).2.1
      failingSim "HuggingFace endpoint timeout" rfl rfl

/-- A persisted FAISS index as far as `load_index` observes it: we record the
embedding dimension of the stored vectors, the datum the claim is about. -/
structure FaissIndex where
  dim : Nat
deriving DecidableEq

/-- `RAGEngine.load_index` from src/backend/ai/rag_engine.py. `pathThere` is
`os.path.exists(FAISS_INDEX_PATH)`; `loadResult` is the behaviour of
`FAISS.load_local` (deserialized index or raised exception). The Python
wraps everything in `try/except` and only prints on failure, leaving
`self.db = None`; no property of the loaded index is inspected. -/
def load_index (pathThere : Bool) (loadResult : Except String FaissIndex) :
    Option FaissIndex :=
  if pathThere then
    match loadResult with
    | .ok idx => some idx
    | .error _ => none
  else
    none

/-- Claim C7 (counterexample): `load_index` performs no dimension validation
and never fails loudly: an index of any stored dimension (999 as much as 1)
is accepted as-is, and even an error raised during loading is swallowed into
an unloaded engine rather than surfaced. -/
theorem load_index_no_dimension_validation :
    load_index true (Except.ok ⟨999⟩) = some ⟨999⟩
    ∧ load_index true (Except.ok ⟨1⟩) = some ⟨1⟩
    ∧ load_index true (Except.error "dimension mismatch 384 vs 999") = none := by
  exact ⟨rfl, rfl, rfl⟩

/-- Claim C7 (amended): `load_index` is total and validates nothing: when the
persisted index deserializes it is connected whatever its embedding
dimension, and every load failure (a dimension mismatch included) is
swallowed into `db = None` — degraded search, never a loud error. -/
theorem load_index_swallows_errors :
    ∀ (pathThere : Bool) (d : Nat) (e : String),
      load_index pathThere (Except.ok ⟨d⟩) = (if pathThere then some ⟨d⟩ else none)
      ∧ load_index pathThere (Except.error e) = none := by
  intro pathThere d e
  cases pathThere <;> simp [load_index]

/-- Witness for the amended C7 at concrete inputs. -/
theorem load_index_swallows_errors_witness :
    load_index true (Except.ok ⟨384⟩) = (if true then some ⟨384⟩ else none)
    ∧ load_index true (Except.error "pickle error") = none :=
  load_index_swallows_errors true 384 "pickle error"

/-! ## Incremental update dedup (src/update_memory.py, `update_memory`)

Python string operations are modelled over character lists so that concrete
runs evaluate in the kernel. -/

/-- Python `s.replace(".pdf", "")`: removes every occurrence of the
case-sensitive four-character pattern `.pdf`, scanning left to right. -/
def removePdfOcc : List Char → List Char
  | '.' :: 'p' :: 'd' :: 'f' :: rest => removePdfOcc rest
  | c :: rest => c :: removePdfOcc rest
  | [] => []

/-- Python `str.strip()` whitespace test (the characters occurring in
practice). -/
def isPyWs (c : Char) : Bool :=
  c == ' ' || c == '\t' || c == '\n' || c == '\r'

/-- Python `s.strip()`: drop whitespace from both ends. -/
def trimChars (l : List Char) : List Char :=
  ((l.dropWhile isPyWs).reverse.dropWhile isPyWs).reverse

/-- The title/filename normalization the code applies on both sides of the
incremental-update comparison: `str(x).replace(".pdf", "").strip().lower()`
(in that order: pattern removal is done on the original casing). -/
def cleanTitle (l : List Char) : List Char :=
  (trimChars (removePdfOcc l)).map Char.toLower

/-- The normalization the claim states: lowercase first, then strip the
known `.pdf` extension (a single trailing occurrence). Used only to compare
the claim against the code. -/
def claimNormalize (l : List Char) : List Char :=
  let low := l.map Char.toLower
  if ['.', 'p', 'd', 'f'].isSuffixOf low then low.take (low.length - 4) else low

/-- The candidate filter of `update_memory`:
`all_pdfs = [f for f in os.listdir(RAW_DIR) if f.lower().endswith('.pdf')]`. -/
def isPdfFilename (f : List Char) : Bool :=
  ['.', 'p', 'd', 'f'].isSuffixOf (f.map Char.toLower)

/-- The new-file selection of `update_memory` (Steps 1 and 2): normalize all
already-indexed titles into `processed_titles_clean`, keep the raw files
ending in `.pdf` case-insensitively, and keep exactly those whose cleaned
name is absent from the normalized title set; the others are skipped. -/
def update_memory_new_pdfs (rawFiles existingTitles : List (List Char)) : List (List Char) :=
  let processedTitlesClean := existingTitles.map cleanTitle
  let allPdfs := rawFiles.filter isPdfFilename
  allPdfs.filter (fun pdf => !(processedTitlesClean.contains (cleanTitle pdf)))

/-- Claim C6 (counterexample): the code does not apply the
lowercase-then-strip-extension normalization of the claim: it removes the
case-sensitive `.pdf` pattern before lowercasing. The file `LAW.PDF`, whose
claim-normalized name (`law`) equals the claim-normalized existing title
`LAW`, should be skipped per the claim, yet the code processes it (its code
normalization is `law.pdf`), re-embedding an already-indexed document. -/
theorem update_memory_normalization_mismatch :
    update_memory_new_pdfs ["LAW.PDF".data] ["LAW".data] = ["LAW.PDF".data]
    ∧ claimNormalize "LAW.PDF".data = claimNormalize "LAW".data := by
  exact ⟨by decide, by decide⟩

/-- Claim C6 (amended): in incremental mode a candidate raw document is
processed iff its name ends in `.pdf` case-insensitively and its
code-normalized name (all case-sensitive `.pdf` occurrences removed, then
whitespace-trimmed, then lowercased) is absent from the identically
normalized set of already-indexed titles; candidates whose code-normalized
name is present are skipped. This coincides with the claim's
lowercase-then-strip rule only when the extension is already lowercase and
`.pdf` occurs nowhere else in the name or titles. -/
theorem update_memory_dedup_filter (rawFiles existingTitles : List (List Char))
    (pdf : List Char) :
    pdf ∈ update_memory_new_pdfs rawFiles existingTitles
      ↔ pdf ∈ rawFiles ∧ isPdfFilename pdf = true
        ∧ cleanTitle pdf ∉ existingTitles.map cleanTitle := by
  simp [update_memory_new_pdfs, List.mem_filter, and_assoc]
  tauto

/-- Witness for the amended C6 at a concrete new file. -/
theorem update_memory_dedup_filter_witness :
    "new_act.pdf".data ∈ update_memory_new_pdfs ["new_act.pdf".data] ["old_act".data]
      ↔ "new_act.pdf".data ∈ [("new_act.pdf".data)] ∧ isPdfFilename "new_act.pdf".data = true
        ∧ cleanTitle "new_act.pdf".data ∉ [("old_act".data)].map cleanTitle :=
  update_memory_dedup_filter ["new_act.pdf".data] ["old_act".data] "new_act.pdf".data

/-! ## Index build with checkpointing (src/backend/ai/rag_engine.py,
`RAGEngine.build_index_from_json`) -/

/-- Result of a build run: either the loop over all batches completed, or the
process exited (`sys.exit(1)`) after a batch exhausted its five embedding
attempts. Either way we record the final on-disk index content. -/
inductive BuildOutcome where
  | completed (disk : Option (List String))
  | aborted (exitCode : Nat) (disk : Option (List String))
deriving DecidableEq

/-- Python slicing `s[:n]` on a string. -/
def pyTake (s : String) (n : Nat) : String :=
  ⟨s.data.take n⟩

/-- The in-loop metadata guard: if a chunk's UTF-8 byte size exceeds 38000,
its text is cut to the first 38000 characters
(`doc.page_content = doc.page_content[:38000]`). -/
def truncateDoc (t : String) : String :=
  if t.utf8ByteSize > 38000 then pyTake t 38000 else t

/-- The batch loop of `build_index_from_json`. `failures i` is the number of
consecutive exceptions the embedding backend raises for the batch at chunk
offset `i` (the `while not success and retries < 5` loop succeeds iff this is
below 5). `db` is the in-memory index content (`self.db`, `None` before
`FAISS.from_documents`); `disk` is the persisted index. Per iteration: on
retry exhaustion the current `db` (if any) is saved and the process exits
with code 1; otherwise the batch is appended and, when `i > 0` and
`i % 2500 == 0`, the index is checkpointed to disk. After the loop the final
index is saved. -/
def buildGo (failures : Nat → Nat) (docs : List String) :
    List Nat → Option (List String) → Option (List String) → BuildOutcome
  | [], db, disk =>
    match db with
    | some d => .completed (some d)
    | none => .completed disk
  | i :: rest, db, disk =>
    let batch := ((docs.drop i).take 50).map truncateDoc
    if 5 ≤ failures i then
      .aborted 1 (match db with | some d => some d | none => disk)
    else
      let newDb := db.getD [] ++ batch
      buildGo failures docs rest (some newDb)
        (if 0 < i ∧ i % 2500 = 0 then some newDb else disk)

/-- Chunk offsets visited by the loop: `range(0, total_chunks, batch_size)`
with `batch_size = 50`. -/
def buildOffsets (total : Nat) : List Nat :=
  (List.range ((total + 49) / 50)).map (fun j => j * 50)

/-- `build_index_from_json`, parametrized by the state `load_index` left
behind (`db₀` in memory, `disk₀` on disk) and the chunked documents. -/
def build_index_from_json (db₀ disk₀ : Option (List String)) (docs : List String)
    (failures : Nat → Nat) : BuildOutcome :=
  buildGo failures docs (buildOffsets docs.length) db₀ disk₀

/-- `optGrows old new`: whatever content `old` holds is retained intact as a
prefix of `new`'s content — nothing persisted is lost or rebuilt from zero. -/
def optGrows (old new : Option (List String)) : Prop :=
  ∀ s, old = some s → ∃ t, new = some (s ++ t)

/-- Final on-disk state of a build outcome. -/
def outDisk : BuildOutcome → Option (List String)
  | .completed d => d
  | .aborted _ d => d

/-- Process exit code of a build outcome (`none` for a normal return). -/
def outCode : BuildOutcome → Option Nat
  | .completed _ => none
  | .aborted c _ => some c

theorem optGrows_refl (o : Option (List String)) : optGrows o o :=
  fun s hs => ⟨[], by simp [hs]⟩

theorem optGrows_trans {a b c : Option (List String)}
    (h1 : optGrows a b) (h2 : optGrows b c) : optGrows a c := by
  intro s hs
  obtain ⟨t, ht⟩ := h1 s hs
  obtain ⟨u, hu⟩ := h2 (s ++ t) ht
  exact ⟨t ++ u, by simp [hu]⟩

/-- Invariant of the batch loop: the final on-disk content extends both the
initial on-disk content and the initial in-memory content, and the only exit
code an abort can carry is 1. -/
theorem buildGo_inv (failures : Nat → Nat) (docs : List String) :
    ∀ (offs : List Nat) (db disk : Option (List String)), optGrows disk db →
      optGrows disk (outDisk (buildGo failures docs offs db disk))
      ∧ optGrows db (outDisk (buildGo failures docs offs db disk))
      ∧ (∀ c d, buildGo failures docs offs db disk = .aborted c d → c = 1) := by
  intro offs
  induction offs with
  | nil =>
    intro db disk h
    cases db with
    | none =>
      refine ⟨?_, ?_, ?_⟩
      · simpa [buildGo, outDisk] using optGrows_refl disk
      · intro s hs
        exact absurd hs (by simp)
      · intro c d heq
        simp [buildGo] at heq
    | some d =>
      refine ⟨?_, ?_, ?_⟩
      · simpa [buildGo, outDisk] using h
      · simpa [buildGo, outDisk] using optGrows_refl (some d)
      · intro c d' heq
        simp [buildGo] at heq
  | cons i rest ih =>
    intro db disk h
    by_cases hf : 5 ≤ failures i
    · cases db with
      | none =>
        refine ⟨?_, ?_, ?_⟩
        · simpa [buildGo, if_pos hf, outDisk] using optGrows_refl disk
        · intro s hs
          exact absurd hs (by simp)
        · intro c d heq
          simp [buildGo, if_pos hf] at heq
          exact heq.1.symm
      | some d =>
        refine ⟨?_, ?_, ?_⟩
        · simpa [buildGo, if_pos hf, outDisk] using h
        · simpa [buildGo, if_pos hf, outDisk] using optGrows_refl (some d)
        · intro c d' heq
          simp [buildGo, if_pos hf] at heq
          exact heq.1.symm
    · have hstep :
          buildGo failures docs (i :: rest) db disk
            = buildGo failures docs rest
                (some (db.getD [] ++ ((docs.drop i).take 50).map truncateDoc))
                (if 0 < i ∧ i % 2500 = 0
                  then some (db.getD [] ++ ((docs.drop i).take 50).map truncateDoc)
                  else disk) := by
        simp [buildGo, if_neg hf]
      set batch := ((docs.drop i).take 50).map truncateDoc with hbatch
      set newDb := db.getD [] ++ batch with hnewDb
      set disk' := (if 0 < i ∧ i % 2500 = 0 then some newDb else disk) with hdisk'
      have hdb' : optGrows db (some newDb) := by
        intro s hs
        exact ⟨batch, by simp [hnewDb, hs]⟩
      have hdd' : optGrows disk disk' := by
        rw [hdisk']
        split
        · intro s hs
          obtain ⟨t, ht⟩ := h s hs
          exact ⟨t ++ batch, by simp [hnewDb, ht]⟩
        · exact optGrows_refl disk
      have hd'n : optGrows disk' (some newDb) := by
        rw [hdisk']
        split
        · exact optGrows_refl (some newDb)
        · exact optGrows_trans h hdb'
      obtain ⟨g1, g2, g3⟩ := ih (some newDb) disk' hd'n
      rw [hstep]
      exact ⟨optGrows_trans hdd' g1, optGrows_trans hdb' g2, g3⟩

/-- Exhausting the five per-batch retries at any visited offset makes the
build abort with exit code 1. -/
theorem buildGo_abort (failures : Nat → Nat) (docs : List String) :
    ∀ (offs : List Nat) (db disk : Option (List String)),
      (∃ i ∈ offs, 5 ≤ failures i) →
      ∃ d, buildGo failures docs offs db disk = .aborted 1 d := by
  intro offs
  induction offs with
  | nil =>
    intro db disk h
    simp at h
  | cons i rest ih =>
    intro db disk h
    by_cases hf : 5 ≤ failures i
    · cases db with
      | none => exact ⟨disk, by simp [buildGo, if_pos hf]⟩
      | some d => exact ⟨some d, by simp [buildGo, if_pos hf]⟩
    · obtain ⟨j, hj, hjf⟩ := h
      rcases List.mem_cons.mp hj with hji | hjr
      · subst hji
        exact absurd hjf hf
      · simpa [buildGo, if_neg hf] using ih _ _ ⟨j, hjr, hjf⟩

/-- Claim C5: when a batch fails to embed 5 consecutive times the build
aborts with the nonzero process exit code 1 (never a silent return); the
on-disk index still extends everything previously checkpointed, intact; and
a rebuild started from the loaded checkpoint (`db₀` extends `disk₀`, as
`load_index` arranges) always ends with the checkpointed content retained as
a prefix of the new index — it resumes from the checkpoint, never from
zero. -/
theorem build_abort_preserves_checkpoints (db₀ disk₀ : Option (List String))
    (docs : List String) (failures : Nat → Nat)
    (hload : optGrows disk₀ db₀) :
    (∀ c d, build_index_from_json db₀ disk₀ docs failures = .aborted c d → c ≠ 0)
    ∧ optGrows disk₀ (outDisk (build_index_from_json db₀ disk₀ docs failures))
    ∧ optGrows db₀ (outDisk (build_index_from_json db₀ disk₀ docs failures))
    ∧ ((∃ i ∈ buildOffsets docs.length, 5 ≤ failures i) →
        ∃ d, build_index_from_json db₀ disk₀ docs failures = .aborted 1 d) := by
  obtain ⟨g1, g2, g3⟩ := buildGo_inv failures docs (buildOffsets docs.length) db₀ disk₀ hload
  refine ⟨?_, g1, g2, ?_⟩
  · intro c d heq
    have := g3 c d heq
    omega
  · intro h
    exact buildGo_abort failures docs (buildOffsets docs.length) db₀ disk₀ h

/-- Fixture: an embedding backend that fails every batch 5 times (completely
unresponsive provider). -/
def alwaysFailEmbed : Nat → Nat :=
  fun _ => 5

/-- Witness for C5: a one-batch build over an existing checkpoint `["a"]`
aborts with exit code 1 and the checkpointed content survives on disk. -/
theorem build_abort_preserves_checkpoints_witness :
    (1 : Nat) ≠ 0
    ∧ optGrows (some ["a"])
        (outDisk (build_index_from_json (some ["a"]) (some ["a"]) ["b"] alwaysFailEmbed))
    ∧ outCode (build_index_from_json (some ["a"]) (some ["a"]) ["b"] alwaysFailEmbed)
        = some 1 := by
  have h := build_abort_preserves_checkpoints (some ["a"]) (some ["a"]) ["b"] alwaysFailEmbed
    (by
      intro s hs
      cases hs
      exact ⟨[], by simp⟩)
  refine ⟨?_, h.2.1, ?_⟩
  · exact h.1 1 (some ["a"]) rfl
  · obtain ⟨d, hd⟩ := h.2.2.2 ⟨0, by decide, by decide⟩
    rw [hd]
    rfl

/-! ## Chunker (spec §4.1; the splitter itself is
`langchain_text_splitters.RecursiveCharacterTextSplitter`, called from
src/backend/ai/rag_engine.py line 91 but not part of this repository) -/

/-- Character-level split: cut pieces of exactly `S` characters, advancing by
`stride = S - O` so the last `O` characters of one chunk lead in the next;
the final piece is whatever remains. -/
def chop (S stride : Nat) (l : List Char) : List (List Char) :=
  if l.length ≤ S then [l]
  else l.take S :: chop S stride (l.drop (max 1 stride))
termination_by l.length
decreasing_by
  simp only [List.length_drop]
  omega

/-- Split a text at every occurrence of the separator character `b`,
dropping the separators. -/
def splitAtSep (b : Char) : List Char → List (List Char)
  | [] => [[]]
  | c :: rest =>
    match splitAtSep b rest with
    | [] => [[]]
    | p :: ps => if c = b then [] :: p :: ps else (c :: p) :: ps

/-- Modelled from the spec: the Chunker's recursive boundary splitting
(`RecursiveCharacterTextSplitter`, absent from src/). A text already within
the size bound `S` is one chunk; an oversized text is split at the largest
available boundary (the head of `seps`), empty pieces are discarded, and each
piece recurses at the next boundary level; when no boundary level remains the
text is cut at character level with overlap `O` carried between consecutive
cuts. Adjacent small pieces are kept as separate chunks (the library's
re-merging up to `S` only produces chunks that are still within the bound). -/
def recSplit (S O : Nat) : List Char → List Char → List (List Char)
  | [], text =>
    if text.length ≤ S then [text] else chop S (S - O) text
  | b :: rest, text =>
    if text.length ≤ S then [text]
    else ((splitAtSep b text).filter (fun p => !p.isEmpty)).flatMap (recSplit S O rest)

/-- The boundary hierarchy of spec §4.1: paragraph > sentence > word, then
character level. -/
def chunkBoundaries : List Char := ['\n', '.', ' ']

/-- Modelled from the spec: the Chunker's entry point. A missing/empty
document yields no chunks at all (never an empty chunk). -/
def chunkText (S O : Nat) (text : List Char) : List (List Char) :=
  if text.isEmpty then [] else recSplit S O chunkBoundaries text

/-- Every piece of a character-level cut is nonempty and within the bound. -/
theorem chop_spec (S stride : Nat) (hS : 0 < S) (hstr : stride ≤ S) :
    ∀ (l : List Char), l ≠ [] → ∀ c ∈ chop S stride l, c ≠ [] ∧ c.length ≤ S := by
  intro l
  induction l using chop.induct S stride with
  | case1 l hle =>
    intro hne c hc
    rw [chop, if_pos hle] at hc
    simp at hc
    subst hc
    exact ⟨hne, hle⟩
  | case2 l hgt ih =>
    intro hne c hc
    have hlpos : 0 < l.length := by omega
    rw [chop, if_neg hgt] at hc
    rcases List.mem_cons.mp hc with hc1 | hc2
    · subst hc1
      constructor
      · intro habs
        have h1 := congrArg List.length habs
        rw [List.length_take] at h1
        simp only [List.length_nil] at h1
        omega
      · rw [List.length_take]
        omega
    · refine ih ?_ c hc2
      intro habs
      have h1 := congrArg List.length habs
      rw [List.length_drop] at h1
      simp only [List.length_nil] at h1
      omega

/-- Every chunk the recursive splitter produces from a nonempty text is
nonempty and within the bound. -/
theorem recSplit_spec (S O : Nat) (hS : 0 < S) :
    ∀ (seps : List Char) (text : List Char), text ≠ [] →
      ∀ c ∈ recSplit S O seps text, c ≠ [] ∧ c.length ≤ S := by
  intro seps
  induction seps with
  | nil =>
    intro text hne c hc
    rw [recSplit] at hc
    by_cases hle : text.length ≤ S
    · rw [if_pos hle] at hc
      simp at hc
      subst hc
      exact ⟨hne, hle⟩
    · rw [if_neg hle] at hc
      exact chop_spec S (S - O) hS (Nat.sub_le S O) text hne c hc
  | cons b rest ih =>
    intro text hne c hc
    rw [recSplit] at hc
    by_cases hle : text.length ≤ S
    · rw [if_pos hle] at hc
      simp at hc
      subst hc
      exact ⟨hne, hle⟩
    · rw [if_neg hle] at hc
      obtain ⟨p, hp, hcp⟩ := List.mem_flatMap.mp hc
      have hpne : p ≠ [] := by
        have h2 := (List.mem_filter.mp hp).2
        simpa using h2
      exact ih p hpne c hcp

/-- Claim C8: for every input document and positive chunk size `S`, every
chunk the chunker produces has length at most `S` (the character level is
always splittable, so the bound is met outright), and no chunk is ever
empty. -/
theorem chunk_bound_nonempty (S O : Nat) (text : List Char) (hS : 0 < S) :
    ∀ c ∈ chunkText S O text, c.length ≤ S ∧ c ≠ [] := by
  intro c hc
  rw [chunkText] at hc
  by_cases he : text.isEmpty
  · rw [if_pos he] at hc
    simp at hc
  · rw [if_neg he] at hc
    have h2 := recSplit_spec S O hS chunkBoundaries text (by simpa using he) c hc
    exact ⟨h2.2, h2.1⟩

/-- Witness for C8: the first chunk of "ab cde" at `S = 4`, `O = 1`. -/
theorem chunk_bound_nonempty_witness :
    ("ab".data).length ≤ 4 ∧ "ab".data ≠ [] :=
  chunk_bound_nonempty 4 1 "ab cde".data (by decide) "ab".data (by decide)

/-! ## Cloud migration metadata truncation (src/migrate_to_pincone.py,
`migrate_to_pinecone`) -/

/-- UTF-8 byte length of a text (Python `len(s.encode('utf-8'))`). -/
def utf8Len (l : List Char) : Nat :=
  (l.map Char.utf8Size).sum

/-- Python `s.encode('utf-8')[:limit].decode('utf-8', 'ignore')` on valid
text: keep the longest character prefix whose total UTF-8 size fits in
`limit`; the leading bytes of a character cut mid-sequence are invalid and
dropped by `'ignore'`. -/
def utf8ByteTrunc (limit : Nat) : List Char → List Char
  | [] => []
  | c :: rest =>
    if c.utf8Size ≤ limit then c :: utf8ByteTrunc (limit - c.utf8Size) rest else []

/-- `METADATA_LIMIT = 38000`, the safety buffer below Pinecone's 40960-byte
metadata limit. -/
def METADATA_LIMIT : Nat := 38000

/-- A record of legal_data_final.json as the migration reads it: `text` is
accessed directly (`item['text']`), the other fields through `.get` with
defaults. -/
structure LegalItem where
  text : List Char
  title : Option String
  source : Option String
  itemType : Option String

/-- The metadata dictionary stored with each upserted vector. -/
structure PineconeMetadata where
  text : List Char
  title : String
  source : String
  itemType : String

/-- One vector as assembled for `index.upsert`. -/
structure PineconeVector (V : Type) where
  id : String
  values : V
  metadata : PineconeMetadata

/-- The per-item body of the migration loop in src/migrate_to_pincone.py:
when the raw text exceeds `METADATA_LIMIT` UTF-8 bytes the metadata stores
the byte-truncated `safe_text`, otherwise the raw text; the embedding
`values` are always computed from the full raw text. -/
def migrateVector {V : Type} (embed : List Char → V) (chunkId : String)
    (item : LegalItem) : PineconeVector V :=
  let raw_text := item.text
  let safe_text :=
    if utf8Len raw_text > METADATA_LIMIT then utf8ByteTrunc METADATA_LIMIT raw_text
    else raw_text
  { id := chunkId
    values := embed raw_text
    metadata :=
      { text := safe_text
        title := item.title.getD "Unknown"
        source := item.source.getD "Official PDF"
        itemType := item.itemType.getD "Act" } }

/-- Byte-limited truncation respects the byte limit. -/
theorem utf8ByteTrunc_le (limit : Nat) (l : List Char) :
    utf8Len (utf8ByteTrunc limit l) ≤ limit := by
  induction l generalizing limit with
  | nil => simp [utf8ByteTrunc, utf8Len]
  | cons c rest ih =>
    by_cases hc : c.utf8Size ≤ limit
    · simp only [utf8ByteTrunc, if_pos hc, utf8Len, List.map_cons, List.sum_cons]
      have h2 := ih (limit - c.utf8Size)
      simp only [utf8Len] at h2
      omega
    · simp [utf8ByteTrunc, if_neg hc, utf8Len]

/-- Claim C9: every upserted chunk stores a metadata text of at most 38000
UTF-8 bytes (byte-truncated, with the bytes of a cut character dropped, when
the original exceeds the limit), while the embedding vector is always
computed from the full untruncated chunk text. -/
theorem migrate_metadata_bounded {V : Type} (embed : List Char → V) (chunkId : String)
    (item : LegalItem) :
    utf8Len (migrateVector embed chunkId item).metadata.text ≤ METADATA_LIMIT
    ∧ (migrateVector embed chunkId item).values = embed item.text := by
  constructor
  · simp only [migrateVector]
    by_cases h : utf8Len item.text > METADATA_LIMIT
    · simp only [if_pos h]
      exact utf8ByteTrunc_le _ _
    · simp only [if_neg h]
      omega
  · rfl

/-- Fixture embedding for the C9 witness. -/
def lenEmbed : List Char → Nat :=
  fun l => l.length

/-- Fixture item for the C9 witness. -/
def sampleItem : LegalItem :=
  ⟨"Whoever commits theft shall be punished".data, some "PPC Section 379", none, none⟩

/-- Witness for C9 at a concrete item. -/
theorem migrate_metadata_bounded_witness :
    utf8Len (migrateVector lenEmbed "chunk_0" sampleItem).metadata.text ≤ METADATA_LIMIT
    ∧ (migrateVector lenEmbed "chunk_0" sampleItem).values = lenEmbed sampleItem.text :=
  migrate_metadata_bounded lenEmbed "chunk_0" sampleItem

/-! ## Record extraction (src/backend/ai/rag_engine.py,
`RAGEngine.process_single_entry`) -/

/-- Metadata attached to an extracted Document. -/
structure LegalDocMeta where
  title : String
  source : String
  docType : String
deriving DecidableEq

/-- A langchain `Document` as built by `process_single_entry`. -/
structure LCDocument where
  page_content : String
  meta : LegalDocMeta
deriving DecidableEq

/-- A JSON record as `process_single_entry` receives it: a dictionary of
string fields, or a non-dictionary value, on which `entry.get` raises
`AttributeError` (caught by the function's bare `except`). -/
inductive PyEntry where
  | dict (kvs : List (String × String))
  | other (repr : String)

/-- Python `str(entry)` for a dictionary: always brace-delimited, hence never
empty (the exact key/value rendering is irrelevant to the claims). -/
def reprDict (kvs : List (String × String)) : String :=
  "\x7b" ++ String.intercalate ", " (kvs.map (fun kv => kv.1 ++ ": " ++ kv.2)) ++ "\x7d"

/-- Python `a or b` for an optional string `a`: absent and empty are both
falsy and fall through to `b`. -/
def pyOrStr (a : Option String) (b : String) : String :=
  match a with
  | some s => if s = "" then b else s
  | none => b

/-- `RAGEngine.process_single_entry`: the fallback chains
`entry.get('text') or entry.get('content') or str(entry)`,
`entry.get('title') or entry.get('section') or "Legal Document"`,
`entry.get('source') or "Official PDF"`, `entry.get('type') or "Act"`, and
the `if text_content:` guard; every exception is swallowed into `None`. -/
def process_single_entry : PyEntry → Option LCDocument
  | .other _ => none
  | .dict e =>
    let text_content := pyOrStr (e.lookup "text") (pyOrStr (e.lookup "content") (reprDict e))
    let title := pyOrStr (e.lookup "title") (pyOrStr (e.lookup "section") "Legal Document")
    let source := pyOrStr (e.lookup "source") "Official PDF"
    let doc_type := pyOrStr (e.lookup "type") "Act"
    if text_content = "" then none
    else some ⟨text_content, ⟨title, source, doc_type⟩⟩

/-- Claim C10 (counterexample): a record carrying an empty `title` and a
`section` field gets `Section 302` as its title — not the empty string the
record holds, and not the default `Legal Document` the claim prescribes for
a record lacking the field: the code treats falsy-present fields as absent
and falls back to `section` before the default. -/
theorem process_entry_title_fallback_counterexample :
    process_single_entry (.dict [("title", ""), ("section", "Section 302"), ("text", "x")])
      = some ⟨"x", ⟨"Section 302", "Official PDF", "Act"⟩⟩
    ∧ "Section 302" ≠ ""
    ∧ "Section 302" ≠ "Legal Document" := by
  exact ⟨by decide, by decide, by decide⟩

/-- A brace-delimited dictionary rendering is never empty. -/
theorem reprDict_ne_empty (kvs : List (String × String)) : reprDict kvs ≠ "" := by
  intro h
  have h1 := congrArg String.length h
  rw [reprDict, String.length_append, String.length_append] at h1
  have e1 : "\x7b".length = 1 := rfl
  have e2 : "".length = 0 := rfl
  rw [e1, e2] at h1
  omega

/-- A Python `or` chain with a truthy right end is truthy. -/
theorem pyOrStr_ne_empty (a : Option String) (b : String) (hb : b ≠ "") :
    pyOrStr a b ≠ "" := by
  cases a with
  | none => exact hb
  | some s =>
    by_cases hs : s = ""
    · simp only [pyOrStr, hs, if_pos rfl]
      exact hb
    · simp only [pyOrStr, if_neg hs]
      exact hs

/-- Claim C10 (amended): record extraction is total — a non-dictionary record
yields `None`, and every dictionary record yields a Document whose
page_content is non-empty (the `str(entry)` fallback is never empty) and
whose metadata always carries the three keys, where `title` is the first
truthy of the record's `title` and `section` fields, else "Legal Document";
`source` is the record's `source` if truthy, else "Official PDF"; `type` is
the record's `type` if truthy, else "Act". -/
theorem process_entry_total_defaults :
    (∀ r, process_single_entry (.other r) = none)
    ∧ (∀ e, ∃ d, process_single_entry (.dict e) = some d
        ∧ d.page_content ≠ ""
        ∧ d.meta.title = pyOrStr (e.lookup "title") (pyOrStr (e.lookup "section") "Legal Document")
        ∧ d.meta.source = pyOrStr (e.lookup "source") "Official PDF"
        ∧ d.meta.docType = pyOrStr (e.lookup "type") "Act") := by
  constructor
  · intro r
    rfl
  · intro e
    have htext : pyOrStr (e.lookup "text") (pyOrStr (e.lookup "content") (reprDict e)) ≠ "" :=
      pyOrStr_ne_empty _ _ (pyOrStr_ne_empty _ _ (reprDict_ne_empty e))
    refine ⟨⟨pyOrStr (e.lookup "text") (pyOrStr (e.lookup "content") (reprDict e)),
      pyOrStr (e.lookup "title") (pyOrStr (e.lookup "section") "Legal Document"),
      pyOrStr (e.lookup "source") "Official PDF",
      pyOrStr (e.lookup "type") "Act"⟩, ?_, htext, rfl, rfl, rfl⟩
    simp only [process_single_entry, if_neg htext]

/-- Witness for the amended C10 at concrete records. -/
theorem process_entry_total_defaults_witness :
    process_single_entry (.other "not a dict") = none :=
  process_entry_total_defaults.1 "not a dict"
